import Mathlib

/-!
Verification of the concurrent streaming/batch statement pipeline of
mstgnz/sqlmapper against its specification.

The development shallowly embeds two source units:
* `mysql/mysql_stream.go` — the MySQL stream parser and generator
  (`ParseStream`, `ParseStreamParallel`, `parseStatement`, `GenerateStream`,
  and the five per-kind `parse*Statement` helpers);
* the batch processor (`NewBatchProcessor`, `ProcessBatch`,
  `processStatement`, `Stop`, `SetBatchSize`, …).

Go strings are Lean `String`s; Go slices are Lean `List`s; fallible Go
functions returning `(T, error)` become `Except String T`; the statement
stream behind `sqlmapper.NewStreamReader` (whose code is outside the unit
under study) is modelled as the list of statements it yields followed by an
optional read error.  The per-dialect parse capabilities
(`p.mysql.parseTables` …) and renderers (`generateTableSQL`, …) live in
other files of the repository and are abstracted as parameters, exactly as
the specification treats them (external collaborators, spec §6).
-/

namespace SqlMapper

/-- Go's `strings.ToUpper` restricted to the character-by-character case
mapping (which agrees with Go on ASCII input, the only case the classifier
prefixes exercise). -/
def goToUpper (s : String) : String := String.mk (s.toList.map Char.toUpper)

/-- Whitespace predicate of Go's `unicode.IsSpace` restricted to ASCII:
space, tab, newline, vertical tab, form feed, carriage return. -/
def goIsSpace (c : Char) : Bool :=
  c = ' ' || c = '\t' || c = '\n' || c = '\x0b' || c = '\x0c' || c = '\r'

/-- Go's `strings.TrimSpace`: drop leading and trailing whitespace. -/
def goTrimSpace (s : String) : String :=
  String.mk (((s.toList.dropWhile goIsSpace).reverse.dropWhile goIsSpace).reverse)

/-- Go's `strings.HasPrefix s p`: `p` is a leading substring of `s`
(computed on the character lists so that concrete instances evaluate). -/
def goHasPre (s p : String) : Bool := p.toList.isPrefixOf s.toList

/-! ## Canonical data model (`sqlmapper` package structs, fields the stream
parser and generator touch) -/

/-- A column index owned by a table (`sqlmapper.Index`). -/
structure Index where
  name : String
  deriving DecidableEq, Repr

/-- A table (`sqlmapper.Table`): the stream generator reads its name and
its indexes. -/
structure Table where
  name : String
  indexes : List Index
  deriving DecidableEq, Repr

/-- A view (`sqlmapper.View`). -/
structure View where
  name : String
  definition : String
  deriving DecidableEq, Repr

/-- A function parameter (`sqlmapper.Parameter`). -/
structure Parameter where
  name : String
  dataType : String
  deriving DecidableEq, Repr

/-- A function or procedure (`sqlmapper.Function`); `isProc` discriminates
procedures. -/
structure Function where
  name : String
  parameters : List Parameter
  returns : String
  body : String
  isProc : Bool
  deriving DecidableEq, Repr

/-- A trigger (`sqlmapper.Trigger`). -/
structure Trigger where
  name : String
  timing : String
  event : String
  table : String
  body : String
  deriving DecidableEq, Repr

/-- The tagged union `sqlmapper.SchemaObject` (`{Type, Data}`): the `Type`
tag of the Go struct becomes the constructor, the `Data` payload the
argument. -/
inductive SchemaObject where
  | table (t : Table)
  | view (v : View)
  | function (f : Function)
  | procedure (f : Function)
  | trigger (t : Trigger)
  deriving DecidableEq, Repr

/-- The canonical schema (`sqlmapper.Schema`), the collections
`GenerateStream` iterates. -/
structure Schema where
  tables : List Table
  views : List View
  functions : List Function
  triggers : List Trigger
  deriving DecidableEq, Repr

/-- The per-dialect parse capabilities consumed by the stream parser:
`p.mysql.parseTables` and friends, each run against a fresh temporary
schema, so each is a pure function from the statement text to the list of
entities it appends to that schema (or an error).  Their bodies live
outside `mysql_stream.go` and are parameters of the embedding. -/
structure Capabilities where
  parseTables : String → Except String (List Table)
  parseViews : String → Except String (List View)
  parseFunctions : String → Except String (List Function)
  parseTriggers : String → Except String (List Trigger)

/-- `parseTableStatement`: run `parseTables` on a fresh temporary schema and
return its first table, or the error `"no table found in statement"`. -/
def parseTableStatement (caps : Capabilities) (statement : String) : Except String Table :=
  match caps.parseTables statement with
  | .error e => .error e
  | .ok tables =>
    match tables with
    | [] => .error "no table found in statement"
    | t :: _ => .ok t

/-- `parseViewStatement`: first view extracted from the statement, or the
error `"no view found in statement"`. -/
def parseViewStatement (caps : Capabilities) (statement : String) : Except String View :=
  match caps.parseViews statement with
  | .error e => .error e
  | .ok views =>
    match views with
    | [] => .error "no view found in statement"
    | v :: _ => .ok v

/-- `parseFunctionStatement`: delegate to `parseFunctions` on a fresh
temporary schema and return its first entry, or the error
`"no function found in statement"`. -/
def parseFunctionStatement (caps : Capabilities) (statement : String) : Except String Function :=
  match caps.parseFunctions statement with
  | .error e => .error e
  | .ok functions =>
    match functions with
    | [] => .error "no function found in statement"
    | f :: _ => .ok f

/-- `parseProcedureStatement`: delegate to the same `parseFunctions` routine
on a fresh temporary schema and return its first entry, or the error
`"no procedure found in statement"`. -/
def parseProcedureStatement (caps : Capabilities) (statement : String) : Except String Function :=
  match caps.parseFunctions statement with
  | .error e => .error e
  | .ok functions =>
    match functions with
    | [] => .error "no procedure found in statement"
    | f :: _ => .ok f

/-- `parseTriggerStatement`: first trigger extracted from the statement, or
the error `"no trigger found in statement"`. -/
def parseTriggerStatement (caps : Capabilities) (statement : String) : Except String Trigger :=
  match caps.parseTriggers statement with
  | .error e => .error e
  | .ok triggers =>
    match triggers with
    | [] => .error "no trigger found in statement"
    | t :: _ => .ok t

/-- Errors a stream-parse run can end with: a read error from the stream
reader, a parse error from a capability, or an error returned by the
caller's callback. -/
inductive StreamErr where
  | readErr (msg : String)
  | parseErr (msg : String)
  | cbErr (msg : String)
  deriving DecidableEq, Repr

/-- `ParseStream`: drive the reader statement by statement; trim; skip blank
statements; classify by case-insensitive prefix in the fixed order
CREATE TABLE, CREATE VIEW, CREATE FUNCTION, CREATE PROCEDURE,
CREATE TRIGGER; on a match, parse and invoke the callback, aborting on the
first parse or callback error; a statement matching no prefix is skipped.
The input stream is the list `stmts` followed by `readErr` (`none` = EOF).
The result records the callback invocations in order, and the outcome. -/
def parseStream (caps : Capabilities) (cb : SchemaObject → Except String Unit) :
    List String → Option String → List SchemaObject × Except StreamErr Unit
  | [], none => ([], .ok ())
  | [], some e => ([], .error (.readErr e))
  | statement :: rest, readErr =>
    let statement := goTrimSpace statement
    if statement = "" then
      parseStream caps cb rest readErr
    else if goHasPre (goToUpper statement) "CREATE TABLE" then
      match parseTableStatement caps statement with
      | .error e => ([], .error (.parseErr e))
      | .ok table =>
        let obj := SchemaObject.table table
        match cb obj with
        | .error e => ([obj], .error (.cbErr e))
        | .ok _ =>
          let r := parseStream caps cb rest readErr
          (obj :: r.1, r.2)
    else if goHasPre (goToUpper statement) "CREATE VIEW" then
      match parseViewStatement caps statement with
      | .error e => ([], .error (.parseErr e))
      | .ok view =>
        let obj := SchemaObject.view view
        match cb obj with
        | .error e => ([obj], .error (.cbErr e))
        | .ok _ =>
          let r := parseStream caps cb rest readErr
          (obj :: r.1, r.2)
    else if goHasPre (goToUpper statement) "CREATE FUNCTION" then
      match parseFunctionStatement caps statement with
      | .error e => ([], .error (.parseErr e))
      | .ok function =>
        let obj := SchemaObject.function function
        match cb obj with
        | .error e => ([obj], .error (.cbErr e))
        | .ok _ =>
          let r := parseStream caps cb rest readErr
          (obj :: r.1, r.2)
    else if goHasPre (goToUpper statement) "CREATE PROCEDURE" then
      match parseProcedureStatement caps statement with
      | .error e => ([], .error (.parseErr e))
      | .ok procedure =>
        let obj := SchemaObject.procedure procedure
        match cb obj with
        | .error e => ([obj], .error (.cbErr e))
        | .ok _ =>
          let r := parseStream caps cb rest readErr
          (obj :: r.1, r.2)
    else if goHasPre (goToUpper statement) "CREATE TRIGGER" then
      match parseTriggerStatement caps statement with
      | .error e => ([], .error (.parseErr e))
      | .ok trigger =>
        let obj := SchemaObject.trigger trigger
        match cb obj with
        | .error e => ([obj], .error (.cbErr e))
        | .ok _ =>
          let r := parseStream caps cb rest readErr
          (obj :: r.1, r.2)
    else
      parseStream caps cb rest readErr

/-- `parseStatement`, the per-statement dispatcher used by the worker
goroutines of `ParseStreamParallel`: a switch over the uppercased statement
with cases for CREATE TABLE, CREATE VIEW, CREATE FUNCTION and
CREATE PROCEDURE; any other statement — the switch has no
CREATE TRIGGER case — falls through to `(nil, nil)`, modelled as
`.ok none`. -/
def parseStatement (caps : Capabilities) (statement : String) :
    Except String (Option SchemaObject) :=
  let upperStatement := goToUpper statement
  if goHasPre upperStatement "CREATE TABLE" then
    match parseTableStatement caps statement with
    | .error e => .error e
    | .ok table => .ok (some (SchemaObject.table table))
  else if goHasPre upperStatement "CREATE VIEW" then
    match parseViewStatement caps statement with
    | .error e => .error e
    | .ok view => .ok (some (SchemaObject.view view))
  else if goHasPre upperStatement "CREATE FUNCTION" then
    match parseFunctionStatement caps statement with
    | .error e => .error e
    | .ok function => .ok (some (SchemaObject.function function))
  else if goHasPre upperStatement "CREATE PROCEDURE" then
    match parseProcedureStatement caps statement with
    | .error e => .error e
    | .ok procedure => .ok (some (SchemaObject.procedure procedure))
  else
    .ok none

/-- Denotation of `ParseStreamParallel` in the error-free case: when no
read error occurs and `parseStatement` errors on no statement, every worker
pushes each non-`nil` `parseStatement` result onto the results channel and
the calling thread drains the channel fully, so the multiset of objects
delivered to the callback is exactly the non-`nil` dispatch results of the
trimmed non-blank statements.  Worker scheduling may permute the delivery
order; this function lists the multiset in input order. -/
def parseStreamParallelResults (caps : Capabilities) (stmts : List String) :
    List SchemaObject :=
  ((stmts.map goTrimSpace).filter (fun s => s ≠ "")).filterMap fun s =>
    match parseStatement caps s with
    | .ok (some obj) => some obj
    | _ => none

/-- The five classifier prefixes, in the order the engines test them. -/
def recognizedKinds : List String :=
  ["CREATE TABLE", "CREATE VIEW", "CREATE FUNCTION", "CREATE PROCEDURE", "CREATE TRIGGER"]

/-- A concrete trigger used to exercise the engines on a trigger statement. -/
def demoTrigger : Trigger :=
  { name := "trg", timing := "BEFORE", event := "INSERT", table := "t", body := "SET x = 1" }

/-- Concrete parse capabilities: only the trigger capability extracts an
entity, which is all the trigger-statement scenario exercises. -/
def demoCaps : Capabilities :=
  { parseTables := fun _ => .ok []
    parseViews := fun _ => .ok []
    parseFunctions := fun _ => .ok []
    parseTriggers := fun _ => .ok [demoTrigger] }

/-- A callback that always succeeds. -/
def okCallback : SchemaObject → Except String Unit := fun _ => .ok ()

/-- A stream holding one valid CREATE TRIGGER statement. -/
def demoTriggerInput : List String :=
  ["CREATE TRIGGER trg BEFORE INSERT ON t FOR EACH ROW SET x = 1"]

/-- C1: on a stream holding one CREATE TRIGGER statement, the sequential
engine `ParseStream` invokes the callback once, with the trigger object, and
succeeds; but `parseStatement` — the dispatcher `ParseStreamParallel`'s
workers run — has no CREATE TRIGGER case, so the parallel engine delivers
no object at all: the set of produced SchemaObjects differs from the
sequential engine's output, contradicting the claimed equivalence. -/
theorem parallelEngine_drops_trigger_objects :
    (parseStream demoCaps okCallback demoTriggerInput none).1
        = [SchemaObject.trigger demoTrigger]
      ∧ (parseStream demoCaps okCallback demoTriggerInput none).2 = .ok ()
      ∧ parseStreamParallelResults demoCaps demoTriggerInput = [] :=
  ⟨rfl, rfl, rfl⟩

/-- C7: a statement whose trimmed, uppercased text begins with none of the
five recognized prefixes is skipped by `ParseStream` without a callback
invocation and without error; a stream of only such statements yields zero
invocations and a nil result. -/
theorem parseStream_skips_unrecognized (caps : Capabilities)
    (cb : SchemaObject → Except String Unit) (stmts : List String)
    (h : ∀ s ∈ stmts, ∀ p ∈ recognizedKinds,
        goHasPre (goToUpper (goTrimSpace s)) p = false) :
    parseStream caps cb stmts none = ([], .ok ()) := by
  induction stmts with
  | nil => rfl
  | cons s rest ih =>
    have hs : ∀ p ∈ recognizedKinds,
        goHasPre (goToUpper (goTrimSpace s)) p = false :=
      fun p hp => h s (List.mem_cons_self s rest) p hp
    have h1 := hs "CREATE TABLE" (by simp [recognizedKinds])
    have h2 := hs "CREATE VIEW" (by simp [recognizedKinds])
    have h3 := hs "CREATE FUNCTION" (by simp [recognizedKinds])
    have h4 := hs "CREATE PROCEDURE" (by simp [recognizedKinds])
    have h5 := hs "CREATE TRIGGER" (by simp [recognizedKinds])
    have ih' := ih (fun s' hs' p hp => h s' (List.mem_cons_of_mem s hs') p hp)
    by_cases hempty : goTrimSpace s = ""
    · simp only [parseStream, hempty, if_pos]
      exact ih'
    · simp only [parseStream, if_neg hempty, h1, h2, h3, h4, h5,
        Bool.false_eq_true, if_false]
      exact ih'

/-- C7 witness: the stream `["SELECT 1"]` yields zero callback invocations
and a nil result. -/
theorem parseStream_skips_unrecognized_witness :
    parseStream demoCaps okCallback ["SELECT 1"] none = ([], Except.ok ()) :=
  parseStream_skips_unrecognized demoCaps okCallback ["SELECT 1"] (by decide)

/-- C10: `parseFunctionStatement` and `parseProcedureStatement` compute the
same result on every capability and statement, except when the shared
`parseFunctions` routine succeeds with an empty list, where they return the
errors "no function found in statement" and "no procedure found in
statement" respectively. -/
theorem parseProcedure_eq_parseFunction_up_to_message
    (caps : Capabilities) (stmt : String) :
    parseFunctionStatement caps stmt = parseProcedureStatement caps stmt
    ∨ (caps.parseFunctions stmt = .ok []
       ∧ parseFunctionStatement caps stmt = .error "no function found in statement"
       ∧ parseProcedureStatement caps stmt = .error "no procedure found in statement") := by
  cases hf : caps.parseFunctions stmt with
  | error e =>
    left
    simp only [parseFunctionStatement, parseProcedureStatement, hf]
  | ok fns =>
    cases fns with
    | nil =>
      right
      refine ⟨rfl, ?_, ?_⟩ <;>
        simp only [parseFunctionStatement, parseProcedureStatement, hf]
    | cons f t =>
      left
      simp only [parseFunctionStatement, parseProcedureStatement, hf]

/-! ## GenerateStream -/

/-- The sink of `GenerateStream`: write call number `calls` succeeds when
`w calls` is true (the writer may fail on any call); `out` accumulates the
chunks written so far. -/
structure GenSt where
  calls : Nat
  out : List String
  deriving DecidableEq, Repr

/-- One `writer.Write` call: on success the chunk is appended, on failure
the write error aborts generation. -/
def emit (w : Nat → Bool) (st : GenSt) (chunk : String) : Except String GenSt :=
  if w st.calls then .ok ⟨st.calls + 1, st.out ++ [chunk]⟩ else .error "write error"

/-- The per-dialect renderers `p.mysql.generateTableSQL` and
`p.mysql.generateIndexSQL`, defined outside `mysql_stream.go` and therefore
parameters of the embedding. -/
structure Renderers where
  generateTableSQL : Table → String
  generateIndexSQL : String → Index → String

/-- The parameter list rendering built by `GenerateStream`'s inner loop
(`", "` between consecutive parameters, each as `name dataType`). -/
def paramsSQL (ps : List Parameter) : String :=
  String.intercalate ", " (ps.map fun p => p.name ++ " " ++ p.dataType)

/-- The view text `CREATE VIEW %s AS %s`. -/
def viewSQL (v : View) : String := "CREATE VIEW " ++ v.name ++ " AS " ++ v.definition

/-- The function text `CREATE FUNCTION %s(params) RETURNS %s\n%s`. -/
def functionSQL (f : Function) : String :=
  "CREATE FUNCTION " ++ f.name ++ "(" ++ paramsSQL f.parameters ++ ") RETURNS "
    ++ f.returns ++ "\n" ++ f.body

/-- The procedure text `CREATE PROCEDURE %s(params)\n%s`. -/
def procedureSQL (f : Function) : String :=
  "CREATE PROCEDURE " ++ f.name ++ "(" ++ paramsSQL f.parameters ++ ")" ++ "\n" ++ f.body

/-- The trigger text `CREATE TRIGGER %s %s %s ON %s\n%s`. -/
def triggerSQL (t : Trigger) : String :=
  "CREATE TRIGGER " ++ t.name ++ " " ++ t.timing ++ " " ++ t.event ++ " ON "
    ++ t.table ++ "\n" ++ t.body

/-- `GenerateStream`: write each table's SQL then its indexes' SQL, then all
views, then the functions with `IsProc` false, then the functions with
`IsProc` true, then all triggers; every chunk carries its terminator
(`";\n"` after an index, `";\n\n"` otherwise); the first write error aborts
and is returned. -/
def generateStream (r : Renderers) (w : Nat → Bool) (schema : Schema) :
    Except String (List String) := do
  let st ← schema.tables.foldlM (fun st table => do
      let st ← emit w st (r.generateTableSQL table ++ ";\n\n")
      table.indexes.foldlM
        (fun st index => emit w st (r.generateIndexSQL table.name index ++ ";\n")) st)
    (⟨0, []⟩ : GenSt)
  let st ← schema.views.foldlM (fun st view => emit w st (viewSQL view ++ ";\n\n")) st
  let st ← schema.functions.foldlM (fun st function =>
      if !function.isProc then emit w st (functionSQL function ++ ";\n\n")
      else pure st) st
  let st ← schema.functions.foldlM (fun st function =>
      if function.isProc then emit w st (procedureSQL function ++ ";\n\n")
      else pure st) st
  let st ← schema.triggers.foldlM
      (fun st trigger => emit w st (triggerSQL trigger ++ ";\n\n")) st
  return st.out

/-- The entity order the specification fixes: each table followed
immediately by its own indexes, then all views, then all functions
(`IsProc` false), then all procedures (`IsProc` true), then all triggers,
each entity's text followed by its statement terminator. -/
def specEmittedChunks (r : Renderers) (schema : Schema) : List String :=
  (schema.tables.bind fun t =>
    (r.generateTableSQL t ++ ";\n\n")
      :: t.indexes.map (fun idx => r.generateIndexSQL t.name idx ++ ";\n"))
  ++ schema.views.map (fun v => viewSQL v ++ ";\n\n")
  ++ (schema.functions.filter (fun f => !f.isProc)).map
      (fun f => functionSQL f ++ ";\n\n")
  ++ (schema.functions.filter (fun f => f.isProc)).map
      (fun f => procedureSQL f ++ ";\n\n")
  ++ schema.triggers.map (fun t => triggerSQL t ++ ";\n\n")

theorem emit_true (st : GenSt) (c : String) :
    emit (fun _ => true) st c = .ok ⟨st.calls + 1, st.out ++ [c]⟩ := rfl

theorem exceptOk_bind {α β : Type} (a : α) (f : α → Except String β) :
    (Except.ok a >>= f) = f a := rfl

/-- A loop body that always succeeds, appending `chs a` chunks for item `a`,
folds to the concatenation of all its items' chunks. -/
theorem foldlM_appends {α : Type} (b : GenSt → α → Except String GenSt)
    (chs : α → List String)
    (hb : ∀ st a, b st a = .ok ⟨st.calls + (chs a).length, st.out ++ chs a⟩) :
    ∀ (l : List α) (st : GenSt),
      l.foldlM b st = .ok ⟨st.calls + (l.bind chs).length, st.out ++ l.bind chs⟩ := by
  intro l
  induction l with
  | nil => intro st; simp [List.foldlM_nil, pure, Except.pure]
  | cons a t ih =>
    intro st
    rw [List.foldlM_cons, hb]
    show t.foldlM b _ = _
    rw [ih]
    simp [List.cons_bind, Nat.add_assoc]

theorem bind_single {α : Type} (l : List α) (g : α → String) :
    (l.bind fun a => [g a]) = l.map g := by
  induction l with
  | nil => rfl
  | cons a t ih => simp [List.cons_bind, ih]

theorem bind_filter_single {α : Type} (l : List α) (p : α → Bool) (g : α → String) :
    (l.bind fun a => if p a then [g a] else []) = (l.filter p).map g := by
  induction l with
  | nil => rfl
  | cons a t ih =>
    cases hp : p a <;> simp [List.cons_bind, hp, List.filter_cons, ih]

/-- C6: with a sink whose writes all succeed, `GenerateStream` succeeds and
the sequence of written chunks is exactly the specification's fixed order:
each table followed by its own indexes, then views, then functions with
`IsProc` false, then procedures (`IsProc` true), then triggers, each
entity's text carrying its statement terminator. -/
theorem generateStream_fixed_order (r : Renderers) (schema : Schema) :
    generateStream r (fun _ => true) schema = .ok (specEmittedChunks r schema) := by
  have htab : ∀ (st : GenSt) (t : Table),
      (do
        let st ← emit (fun _ => true) st (r.generateTableSQL t ++ ";\n\n")
        t.indexes.foldlM
          (fun st index => emit (fun _ => true) st (r.generateIndexSQL t.name index ++ ";\n")) st)
      = Except.ok (⟨st.calls + ((r.generateTableSQL t ++ ";\n\n")
            :: t.indexes.map (fun idx => r.generateIndexSQL t.name idx ++ ";\n")).length,
          st.out ++ ((r.generateTableSQL t ++ ";\n\n")
            :: t.indexes.map (fun idx => r.generateIndexSQL t.name idx ++ ";\n"))⟩ : GenSt) := by
    intro st t
    rw [show (do
        let st ← emit (fun _ => true) st (r.generateTableSQL t ++ ";\n\n")
        t.indexes.foldlM
          (fun st index => emit (fun _ => true) st (r.generateIndexSQL t.name index ++ ";\n")) st)
      = t.indexes.foldlM
          (fun st index => emit (fun _ => true) st (r.generateIndexSQL t.name index ++ ";\n"))
          (⟨st.calls + 1, st.out ++ [r.generateTableSQL t ++ ";\n\n"]⟩ : GenSt) from rfl]
    rw [foldlM_appends
      (fun st index => emit (fun _ => true) st (r.generateIndexSQL t.name index ++ ";\n"))
      (fun idx => [r.generateIndexSQL t.name idx ++ ";\n"]) (fun st idx => rfl)]
    simp [bind_single, List.singleton_append, List.append_assoc,
      Nat.add_comm, Nat.add_assoc, Nat.add_left_comm]
  have hview : ∀ (st : GenSt) (v : View),
      emit (fun _ => true) st (viewSQL v ++ ";\n\n")
        = .ok ⟨st.calls + ([viewSQL v ++ ";\n\n"]).length, st.out ++ [viewSQL v ++ ";\n\n"]⟩ :=
    fun st v => rfl
  have hfun : ∀ (st : GenSt) (f : Function),
      (if !f.isProc then emit (fun _ => true) st (functionSQL f ++ ";\n\n")
       else pure st)
      = Except.ok (⟨st.calls + (if !f.isProc then [functionSQL f ++ ";\n\n"] else []).length,
          st.out ++ (if !f.isProc then [functionSQL f ++ ";\n\n"] else [])⟩ : GenSt) := by
    intro st f
    cases hp : f.isProc <;> simp [hp, emit_true, pure, Except.pure]
  have hproc : ∀ (st : GenSt) (f : Function),
      (if f.isProc then emit (fun _ => true) st (procedureSQL f ++ ";\n\n")
       else pure st)
      = Except.ok (⟨st.calls + (if f.isProc then [procedureSQL f ++ ";\n\n"] else []).length,
          st.out ++ (if f.isProc then [procedureSQL f ++ ";\n\n"] else [])⟩ : GenSt) := by
    intro st f
    cases hp : f.isProc <;> simp [hp, emit_true, pure, Except.pure]
  have htrig : ∀ (st : GenSt) (t : Trigger),
      emit (fun _ => true) st (triggerSQL t ++ ";\n\n")
        = .ok ⟨st.calls + ([triggerSQL t ++ ";\n\n"]).length, st.out ++ [triggerSQL t ++ ";\n\n"]⟩ :=
    fun st t => rfl
  unfold generateStream
  rw [foldlM_appends _ _ htab, exceptOk_bind,
    foldlM_appends _ _ hview, exceptOk_bind,
    foldlM_appends _ _ hfun, exceptOk_bind,
    foldlM_appends _ _ hproc, exceptOk_bind,
    foldlM_appends _ _ htrig, exceptOk_bind]
  simp only [specEmittedChunks, bind_single, bind_filter_single, List.nil_append,
    List.append_assoc]
  rfl

end SqlMapper

namespace Parser

/-! ## BatchProcessor: configuration and construction -/

/-- `BatchConfig`: `timeoutNs` is the Go `time.Duration` in nanoseconds;
`hasMemOptimizer` and `hasErrorHandler` record whether the two pointer
fields are non-nil. -/
structure BatchConfig where
  batchSize : Int
  workers : Int
  timeoutNs : Int
  hasMemOptimizer : Bool
  hasErrorHandler : Bool
  deriving DecidableEq, Repr

/-- The configuration fields of a constructed `BatchProcessor`.  `queueCap`
and `poolCap` are the capacities of `bp.queue` and `bp.workerPool`, fixed
by the `make` calls in `NewBatchProcessor` and never changed afterwards. -/
structure BatchProcessor where
  batchSize : Int
  workers : Int
  queueCap : Int
  poolCap : Int
  timeoutNs : Int
  hasMemOptimizer : Bool
  hasErrorHandler : Bool
  deriving DecidableEq, Repr

/-- The default-substitution phase of `NewBatchProcessor`: a field is
replaced by its default exactly when it equals zero (`Workers` →
`runtime.NumCPU()`, `BatchSize` → 1000, `Timeout` → 30s) or, for the error
handler, when it is nil. -/
def resolveConfig (numCPU : Int) (config : BatchConfig) : BatchConfig :=
  let config := if config.workers = 0 then {config with workers := numCPU} else config
  let config := if config.batchSize = 0 then {config with batchSize := 1000} else config
  let config := if config.timeoutNs = 0 then {config with timeoutNs := 30000000000} else config
  if config.hasErrorHandler = false then {config with hasErrorHandler := true} else config

/-- `NewBatchProcessor`: substitute defaults, then build the struct.  The
struct literal evaluates `make(chan *Statement, config.BatchSize)` and then
`make(chan struct\x7b\x7d, config.Workers)`; Go's `make` panics when the
capacity is negative, modelled as `.error`. -/
def newBatchProcessor (numCPU : Int) (config : BatchConfig) : Except String BatchProcessor :=
  let config := resolveConfig numCPU config
  if config.batchSize < 0 then .error "makechan: size out of range"
  else if config.workers < 0 then .error "makechan: size out of range"
  else .ok
    { batchSize := config.batchSize
      workers := config.workers
      queueCap := config.batchSize
      poolCap := config.workers
      timeoutNs := config.timeoutNs
      hasMemOptimizer := config.hasMemOptimizer
      hasErrorHandler := config.hasErrorHandler }

/-- `SetBatchSize`: write `bp.batchSize` under the exclusive lock.  No other
field changes; in particular `bp.queue` is not recreated, so `queueCap`
keeps its construction-time value. -/
def setBatchSize (bp : BatchProcessor) (size : Int) : BatchProcessor :=
  {bp with batchSize := size}

/-- The capacity of the input queue a `ProcessBatch` call on `bp` uses:
`ProcessBatch` sends on `bp.queue`, the channel made once in
`NewBatchProcessor`; no code path reads `bp.batchSize` after
construction. -/
def processBatchQueueCap (bp : BatchProcessor) : Int := bp.queueCap

/-- A concrete configuration with `BatchSize` 2. -/
def c5config : BatchConfig :=
  { batchSize := 2, workers := 1, timeoutNs := 1,
    hasMemOptimizer := false, hasErrorHandler := true }

/-- C5 counterexample: construct with `BatchSize` 2, call `SetBatchSize 5`,
and the queue any later `ProcessBatch` uses still has capacity 2, not 5. -/
theorem setBatchSize_queue_unchanged_counterexample :
    (newBatchProcessor 4 c5config).map
        (fun bp => processBatchQueueCap (setBatchSize bp 5)) = Except.ok 2
    ∧ ((Except.ok 2 : Except String Int) ≠ Except.ok 5) := by
  refine ⟨rfl, fun hcontra => ?_⟩
  exact absurd (Except.ok.inj hcontra) (by decide)

/-- C5 amended: `SetBatchSize n` updates only the stored `batchSize` field
(under the exclusive lock); the input queue keeps the capacity fixed at
construction, so `ProcessBatch` calls that begin later still use the
original capacity — the new batch size never becomes a queue capacity. -/
theorem setBatchSize_updates_field_only (bp : BatchProcessor) (size : Int) :
    (setBatchSize bp size).batchSize = size
    ∧ processBatchQueueCap (setBatchSize bp size) = processBatchQueueCap bp :=
  ⟨rfl, rfl⟩

theorem resolveConfig_workers (numCPU : Int) (config : BatchConfig) :
    (resolveConfig numCPU config).workers
      = if config.workers = 0 then numCPU else config.workers := by
  by_cases hw : config.workers = 0 <;>
    by_cases hb : config.batchSize = 0 <;>
    by_cases ht : config.timeoutNs = 0 <;>
    by_cases he : config.hasErrorHandler = false <;>
    simp [resolveConfig, hw, hb, ht, he]

theorem resolveConfig_batchSize (numCPU : Int) (config : BatchConfig) :
    (resolveConfig numCPU config).batchSize
      = if config.batchSize = 0 then 1000 else config.batchSize := by
  by_cases hw : config.workers = 0 <;>
    by_cases hb : config.batchSize = 0 <;>
    by_cases ht : config.timeoutNs = 0 <;>
    by_cases he : config.hasErrorHandler = false <;>
    simp [resolveConfig, hw, hb, ht, he]

/-- C9: `NewBatchProcessor` substitutes defaults only for fields that are
exactly zero; negative `Workers` or `BatchSize` pass the default
substitution unchanged and the construction panics making a buffered
channel of negative capacity. -/
theorem newBatchProcessor_negative_capacity_panics (numCPU : Int) (config : BatchConfig)
    (h : config.workers < 0 ∨ config.batchSize < 0) :
    (config.workers = 0 → (resolveConfig numCPU config).workers = numCPU)
    ∧ (config.batchSize = 0 → (resolveConfig numCPU config).batchSize = 1000)
    ∧ (config.workers < 0 → (resolveConfig numCPU config).workers = config.workers)
    ∧ (config.batchSize < 0 → (resolveConfig numCPU config).batchSize = config.batchSize)
    ∧ newBatchProcessor numCPU config = .error "makechan: size out of range" := by
  refine ⟨?_, ?_, ?_, ?_, ?_⟩
  · intro hw
    rw [resolveConfig_workers, if_pos hw]
  · intro hb
    rw [resolveConfig_batchSize, if_pos hb]
  · intro hw
    rw [resolveConfig_workers, if_neg (by omega)]
  · intro hb
    rw [resolveConfig_batchSize, if_neg (by omega)]
  · simp only [newBatchProcessor]
    rcases h with hw | hb
    · by_cases hq : (resolveConfig numCPU config).batchSize < 0
      · rw [if_pos hq]
      · have hwneg : (resolveConfig numCPU config).workers < 0 := by
          rw [resolveConfig_workers, if_neg (by omega)]
          exact hw
        rw [if_neg hq, if_pos hwneg]
    · have hbneg : (resolveConfig numCPU config).batchSize < 0 := by
        rw [resolveConfig_batchSize, if_neg (by omega)]
        exact hb
      rw [if_pos hbneg]

/-- C9 witness: `Workers = -3`, `BatchSize = 5` is accepted unchanged and
construction panics. -/
theorem newBatchProcessor_negative_capacity_panics_witness :
    ((-3 : Int) < 0 ∨ (5 : Int) < 0)
    ∧ newBatchProcessor 4
        { batchSize := 5, workers := -3, timeoutNs := 7,
          hasMemOptimizer := false, hasErrorHandler := true }
      = .error "makechan: size out of range" :=
  ⟨Or.inl (by decide),
    (newBatchProcessor_negative_capacity_panics 4
      { batchSize := 5, workers := -3, timeoutNs := 7,
        hasMemOptimizer := false, hasErrorHandler := true }
      (Or.inl (by decide))).2.2.2.2⟩

/-! ## ProcessBatch / Stop: queue-and-stop state model

`ProcessBatch` and `Stop` share two pieces of mutable state: the `stopped`
flag (guarded by `bp.mu`) and the open/closed state of `bp.queue`.  The
model below is a denotational rendering of one `ProcessBatch` call: the
scheduling freedom — whether the send-loop `select` at some statement index
picks `ctx.Done()` or `errChan` instead of the send, and which branch the
final `select` takes — is a parameter, so a theorem quantified over these
parameters covers every exit path of the code. -/

/-- The `stopped` flag and whether `bp.queue` has been closed. -/
structure BPState where
  stopped : Bool
  queueClosed : Bool
  deriving DecidableEq, Repr

/-- How a `ProcessBatch` call ends. -/
inductive BPRet where
  | stoppedErr       -- ErrBatchProcessorStopped, from the isStopped check
  | ctxErr           -- ctx.Err(): deadline exceeded or cancellation
  | workerErr        -- first handler error received from errChan
  | ok
  | panicSendClosed  -- send on closed channel
  | panicCloseClosed -- close of closed channel
  deriving DecidableEq, Repr

/-- The event that preempts the send at a given statement index: the
`select` picks `ctx.Done()` or a worker error from `errChan`. -/
inductive SendEvt where
  | ctxDone
  | workerFail
  deriving DecidableEq, Repr

/-- The branch the final `select` (after `close(bp.queue); wg.Wait()`)
takes: a buffered worker error, `ctx.Done()`, or the default. -/
inductive FinalSel where
  | errChanErr
  | ctxDone
  | noErr
  deriving DecidableEq, Repr

/-- The three normal-completion exits of `ProcessBatch`: the loop sent all
`numStmts` statements, then `close(bp.queue); wg.Wait()` ran and the final
`select` chose its branch.  The third component counts statements handed to
workers (all of them on these paths). -/
def normalExit (st : BPState) (numStmts : Nat) (finalSel : FinalSel) :
    BPRet × BPState × Nat :=
  match finalSel with
  | .errChanErr => (.workerErr, {st with queueClosed := true}, numStmts)
  | .ctxDone => (.ctxErr, {st with queueClosed := true}, numStmts)
  | .noErr => (.ok, {st with queueClosed := true}, numStmts)

/-- `ProcessBatch`: if `isStopped()`, return `ErrBatchProcessorStopped` at
once — no worker starts, no statement is sent, the state is untouched.
Otherwise run the send loop: at each index the `select` either sends or is
preempted by `interrupt`; the `ctx.Done()` and `errChan` cases close the
queue and return, and completion of the loop closes the queue, waits, and
returns by `finalSel`.  If the queue is already closed when the call starts
(an earlier call closed it while `stopped` stayed false), the first
executed queue operation panics: the chosen send case panics on the closed
channel, and the `ctx.Done()`/`errChan` cases and the empty-loop exit panic
closing the closed channel.  The result is (return, state after, number of
statements handed to workers). -/
def processBatch (st : BPState) (numStmts : Nat)
    (interrupt : Option (Nat × SendEvt)) (finalSel : FinalSel) :
    BPRet × BPState × Nat :=
  if st.stopped then (.stoppedErr, st, 0)
  else if st.queueClosed then
    match interrupt with
    | some (k, _) =>
      if k < numStmts then (.panicCloseClosed, st, 0)
      else if numStmts = 0 then (.panicCloseClosed, st, 0)
      else (.panicSendClosed, st, 0)
    | none =>
      if numStmts = 0 then (.panicCloseClosed, st, 0)
      else (.panicSendClosed, st, 0)
  else
    match interrupt with
    | some (k, evt) =>
      if k < numStmts then
        match evt with
        | .ctxDone => (.ctxErr, {st with queueClosed := true}, k)
        | .workerFail => (.workerErr, {st with queueClosed := true}, k)
      else normalExit st numStmts finalSel
    | none => normalExit st numStmts finalSel

/-- How a `Stop` call ends. -/
inductive StopRet where
  | ok
  | panicCloseClosed
  deriving DecidableEq, Repr

/-- `Stop`: under `bp.mu`, if not yet stopped, set `stopped := true` and
`close(bp.queue)`; closing an already-closed channel panics (after the flag
write).  A second `Stop` is a no-op. -/
def stop (st : BPState) : StopRet × BPState :=
  if st.stopped then (.ok, st)
  else if st.queueClosed then (.panicCloseClosed, ⟨true, true⟩)
  else (.ok, ⟨true, true⟩)

/-- The state of a freshly constructed processor. -/
def initialBPState : BPState := ⟨false, false⟩

/-- C3: when `Stop()` has returned before a `ProcessBatch` call begins, the
call returns `ErrBatchProcessorStopped` immediately — zero statements are
handed to workers, so the handler is never invoked — whatever the
statements and scheduling. -/
theorem processBatch_after_stop (st : BPState) (n : Nat)
    (interrupt : Option (Nat × SendEvt)) (finalSel : FinalSel) :
    processBatch (stop st).2 n interrupt finalSel = (.stoppedErr, (stop st).2, 0) := by
  unfold stop processBatch
  rcases hs : st.stopped <;> rcases hq : st.queueClosed <;> simp [hs, hq]

/-- C8: a `ProcessBatch` run starting on a fresh processor closes
`bp.queue` on every exit path while leaving `stopped` false, so the
processor is single-use: a second `ProcessBatch` call with a non-empty
statement slice panics by sending on the closed channel, and a subsequent
`Stop()` panics by closing the already-closed channel. -/
theorem processBatch_single_use :
    (∀ (n : Nat) (intr : Option (Nat × SendEvt)) (fs : FinalSel),
        (processBatch initialBPState n intr fs).2.1.queueClosed = true
        ∧ (processBatch initialBPState n intr fs).2.1.stopped = false)
    ∧ (∀ (n : Nat) (intr : Option (Nat × SendEvt)) (fs : FinalSel)
        (n' : Nat) (fs' : FinalSel),
        (processBatch (processBatch initialBPState n intr fs).2.1 (n' + 1) none fs').1
          = .panicSendClosed)
    ∧ (∀ (n : Nat) (intr : Option (Nat × SendEvt)) (fs : FinalSel),
        (stop (processBatch initialBPState n intr fs).2.1).1 = .panicCloseClosed) := by
  have hstate : ∀ (n : Nat) (intr : Option (Nat × SendEvt)) (fs : FinalSel),
      (processBatch initialBPState n intr fs).2.1 = ⟨false, true⟩ := by
    intro n intr fs
    unfold processBatch initialBPState normalExit
    rcases intr with _ | ⟨k, evt⟩
    · cases fs <;> simp
    · by_cases hk : k < n
      · cases evt <;> simp [hk]
      · cases fs <;> simp [hk]
  refine ⟨?_, ?_, ?_⟩
  · intro n intr fs
    rw [hstate]
    exact ⟨rfl, rfl⟩
  · intro n intr fs n' fs'
    rw [hstate]
    unfold processBatch
    simp
  · intro n intr fs
    rw [hstate]
    rfl

/-! ## processStatement: pool slot and pooled-buffer bracketing -/

/-- The observable actions of one `processStatement` call, in execution
order: the `workerPool` send and deferred receive, the `GetBuffer` /
`PutBuffer` pair, and the handler invocation. -/
inductive PSEvent where
  | acquireSlot
  | releaseSlot
  | getBuffer
  | putBuffer
  | handlerRun
  deriving DecidableEq, Repr

/-- How a `processStatement` call ends. -/
inductive PSRet where
  | ctxErr
  | handlerErr
  | ok
  deriving DecidableEq, Repr

/-- `processStatement`: the `select` either acquires a `workerPool` slot or
returns `ctx.Err()`; with a `MemOptimizer` configured, `GetBuffer` runs
before the handler and the deferred `PutBuffer` after it; deferred calls
run in LIFO order, so the buffer is returned before the slot.  The trace
lists the events in execution order. -/
def processStatement (memOptimizer ctxDoneAtAcquire handlerFails : Bool) :
    List PSEvent × PSRet :=
  if ctxDoneAtAcquire then ([], .ctxErr)
  else
    ([PSEvent.acquireSlot]
       ++ (if memOptimizer then [PSEvent.getBuffer] else [])
       ++ [PSEvent.handlerRun]
       ++ (if memOptimizer then [PSEvent.putBuffer] else [])
       ++ [PSEvent.releaseSlot],
     if handlerFails then .handlerErr else .ok)

/-- C4: with a `MemOptimizer` configured, every `processStatement`
execution balances `GetBuffer` with `PutBuffer`, and every execution that
reaches the handler has the exact trace acquire-slot, get-buffer, handler,
put-buffer, release-slot — the buffer is acquired before the handler and
released on every exit path, also when the handler fails. -/
theorem processStatement_buffer_bracketing (c h : Bool) :
    ((processStatement true c h).1.count PSEvent.getBuffer
        = (processStatement true c h).1.count PSEvent.putBuffer)
    ∧ ((processStatement true c h).1 = []
       ∨ (processStatement true c h).1
          = [PSEvent.acquireSlot, PSEvent.getBuffer, PSEvent.handlerRun,
             PSEvent.putBuffer, PSEvent.releaseSlot]) := by
  cases c <;> cases h <;> simp [processStatement]

/-! ## Bounded concurrency of handler invocations

`processStatement` brackets each handler invocation between a send on the
buffered channel `bp.workerPool` (capacity `bp.workers`) and the deferred
receive.  Go's semantics of a buffered channel make the send block while
`workers` tokens are buffered, so the number of goroutines between send and
receive — in particular, the number of concurrently running handler
invocations — can never exceed `workers`.  The transition system below is
that semantics: `pcs` holds one flag per worker goroutine (`true` while it
is inside the send/receive bracket), `pool` is the channel's occupancy. -/

/-- One configuration of the worker goroutines and the `workerPool`
channel. -/
structure PoolSt where
  pcs : List Bool
  pool : Nat
  deriving DecidableEq, Repr

/-- The two transitions touching `workerPool`: goroutine `i` enters the
handler bracket (the send succeeds only while the buffer holds fewer than
`workers` tokens) or leaves it (the deferred receive). -/
inductive PoolStep (workers : Nat) : PoolSt → PoolSt → Prop where
  | enter (s : PoolSt) (i : Nat) (hi : s.pcs.get? i = some false)
      (hc : s.pool < workers) :
      PoolStep workers s ⟨s.pcs.set i true, s.pool + 1⟩
  | leave (s : PoolSt) (i : Nat) (hi : s.pcs.get? i = some true) :
      PoolStep workers s ⟨s.pcs.set i false, s.pool - 1⟩

/-- States reachable from the start of a `ProcessBatch` call with `g`
worker goroutines (the code starts `g = bp.workers` of them; the bound
below needs only the semaphore, not the goroutine count). -/
inductive PoolReach (workers g : Nat) : PoolSt → Prop where
  | init : PoolReach workers g ⟨List.replicate g false, 0⟩
  | step {s s' : PoolSt} : PoolReach workers g s → PoolStep workers s s' →
      PoolReach workers g s'

theorem count_true_set_true (l : List Bool) (i : Nat) (h : l.get? i = some false) :
    (l.set i true).count true = l.count true + 1 := by
  induction l generalizing i with
  | nil => simp at h
  | cons a t ih =>
    cases i with
    | zero =>
      simp only [List.get?] at h
      cases h
      simp [List.set, List.count_cons]
    | succ j =>
      simp only [List.get?] at h
      simp [List.set, List.count_cons, ih j h]
      cases a <;> simp [Nat.add_comm, Nat.add_assoc, Nat.add_left_comm]

theorem count_true_set_false (l : List Bool) (i : Nat) (h : l.get? i = some true) :
    (l.set i false).count true + 1 = l.count true := by
  induction l generalizing i with
  | nil => simp at h
  | cons a t ih =>
    cases i with
    | zero =>
      simp only [List.get?] at h
      cases h
      simp [List.set, List.count_cons]
    | succ j =>
      simp only [List.get?] at h
      simp only [List.set, List.count_cons]
      cases a <;> simp [← ih j h, Nat.add_comm, Nat.add_assoc, Nat.add_left_comm]

theorem one_le_count_true (l : List Bool) (i : Nat) (h : l.get? i = some true) :
    1 ≤ l.count true := by
  induction l generalizing i with
  | nil => simp at h
  | cons a t ih =>
    cases i with
    | zero =>
      simp only [List.get?] at h
      cases h
      simp [List.count_cons]
    | succ j =>
      simp only [List.get?] at h
      have := ih j h
      simp [List.count_cons]
      cases a <;> omega

/-- Invariant of the `workerPool` semaphore: the channel occupancy equals
the number of goroutines inside the handler bracket and never exceeds the
capacity. -/
theorem poolReach_invariant (workers g : Nat) (s : PoolSt)
    (hr : PoolReach workers g s) :
    s.pcs.count true = s.pool ∧ s.pool ≤ workers := by
  induction hr with
  | init =>
    constructor
    · simp [List.count_replicate]
    · exact Nat.zero_le workers
  | step hr hstep ih =>
    cases hstep with
    | enter i hi hc =>
      exact ⟨by rw [count_true_set_true _ i hi, ih.1], hc⟩
    | leave i hi =>
      have h0 := one_le_count_true _ i hi
      have h2 := count_true_set_false _ i hi
      have h1 := ih.1
      refine ⟨?_, Nat.le_trans (Nat.sub_le _ 1) ih.2⟩
      show List.count true (List.set _ i false) = _ - 1
      omega

/-- C2: for every pool size `workers ≥ 1`, any goroutine count and any
reachable configuration of a `ProcessBatch` run, at most `workers`
goroutines are inside the `workerPool` bracket — never more than `workers`
concurrent handler invocations, whatever the input size or queue
capacity. -/
theorem processBatch_bounded_concurrency (workers g : Nat) (s : PoolSt)
    (hW : 1 ≤ workers) (hr : PoolReach workers g s) :
    s.pcs.count true ≤ workers := by
  have h := poolReach_invariant workers g s hr
  omega

/-- C2 witness: with one worker slot and two goroutines, the state reached
after one goroutine enters the handler bracket satisfies the bound. -/
theorem processBatch_bounded_concurrency_witness :
    1 ≤ 1
    ∧ (⟨(List.replicate 2 false).set 0 true, 0 + 1⟩ : PoolSt).pcs.count true ≤ 1 :=
  ⟨Nat.le_refl 1,
    processBatch_bounded_concurrency 1 2 ⟨(List.replicate 2 false).set 0 true, 0 + 1⟩
      (Nat.le_refl 1)
      (PoolReach.step PoolReach.init
        (PoolStep.enter ⟨List.replicate 2 false, 0⟩ 0 rfl (by decide)))⟩

end Parser
